import Mathlib

/-!
# Verification of the sandbox voxel renderer core

Shallow embedding of the sector data model, the mesh generator and the
generation worker of the `sandbox` repository, together with proofs of the
spec's claims about them.

Machine integers (`usize`, `u32`) are modelled as `Nat`; the sizes involved
stay far below any wrap-around boundary.  `f32` arithmetic in the texture
coordinate derivation is modelled exactly over `ℚ` (every intermediate value
in the source is produced by exact float operations except the final division
by the atlas dimension, which is modelled as exact rational division).
Fallible code (bounds-checked neighbor lookup, the `unreachable!()` branch of
`Block::texture_id`) is modelled with `Option`.
-/

/-- Faces of a cube, from `src/side.rs` (`enum Side`). -/
inductive Side where
  | Front
  | Back
  | RightSide
  | LeftSide
  | Top
  | Bottom
deriving DecidableEq

/-- Voxel kinds, from `src/block.rs` (`enum Block`). -/
inductive Block where
  | Air
  | TestBlock
  | Stone
  | Soil
  | Grass
deriving DecidableEq

/-- `Block::texture_id` from `src/block.rs`.  The `unreachable!()` branch for
`Air` is modelled as `none`; every other arm returns the source's literal
tile index. -/
def Block.texture_id : Block → Side → Option Nat
  | .Air, _ => none
  | .TestBlock, _ => some 16
  | .Stone, _ => some 0
  | .Soil, _ => some 1
  | .Grass, .Top => some 2
  | .Grass, .Bottom => some 1
  | .Grass, _ => some 3

/-- `Block::is_transparent` from `src/block.rs`. -/
def Block.is_transparent : Block → Bool
  | .Air => true
  | _ => false

/-- `Block::default()` from `src/block.rs` (`impl Default for Block`). -/
def Block.defaultBlock : Block := Block.Air

/-- `SECTOR_DIM` from `src/entity/sector/data.rs`. -/
def SECTOR_DIM : Nat := 16

/-- `SECTOR_LEN` from `src/entity/sector/data.rs`. -/
def SECTOR_LEN : Nat := SECTOR_DIM * SECTOR_DIM * SECTOR_DIM

/-- `SECTOR_MIN` from `src/entity/sector/data.rs`. -/
def SECTOR_MIN : Nat := 0

/-- `SECTOR_MAX` from `src/entity/sector/data.rs`. -/
def SECTOR_MAX : Nat := SECTOR_DIM - 1

/-- `SectorCoords` from `src/entity/sector/data.rs`: a triplet of `usize`
components positioning one voxel inside a sector. -/
structure SectorCoords where
  x : Nat
  y : Nat
  z : Nat
deriving DecidableEq

/-- `SectorCoords::neighbor` from `src/entity/sector/data.rs`: the coordinate
one step in the given direction, or `none` when that step would leave the
valid sector range. -/
def SectorCoords.neighbor (c : SectorCoords) (s : Side) : Option SectorCoords :=
  match s with
  | .Front => if c.z < SECTOR_MAX then some ⟨c.x, c.y, c.z + 1⟩ else none
  | .Back => if c.z > SECTOR_MIN then some ⟨c.x, c.y, c.z - 1⟩ else none
  | .RightSide => if c.x < SECTOR_MAX then some ⟨c.x + 1, c.y, c.z⟩ else none
  | .LeftSide => if c.x > SECTOR_MIN then some ⟨c.x - 1, c.y, c.z⟩ else none
  | .Top => if c.y < SECTOR_MAX then some ⟨c.x, c.y + 1, c.z⟩ else none
  | .Bottom => if c.y > SECTOR_MIN then some ⟨c.x, c.y - 1, c.z⟩ else none

/-- `SectorData` from `src/entity/sector/data.rs`: the dense block array
`blocks: [Block; SECTOR_LEN]`, modelled as a function from array index to
`Block`.  Only indices `< SECTOR_LEN` are ever read by the embedded code. -/
structure SectorData where
  blocks : Nat → Block

/-- `SectorData::index` from `src/entity/sector/data.rs`:
`x + y * SECTOR_DIM + z * SECTOR_DIM * SECTOR_DIM`. -/
def SectorData.index (sector_coords : SectorCoords) : Nat :=
  sector_coords.x + sector_coords.y * SECTOR_DIM
    + sector_coords.z * SECTOR_DIM * SECTOR_DIM

/-- `SectorData::coords` from `src/entity/sector/data.rs`: recover the
coordinates of an array index by successive division and subtraction. -/
def SectorData.coords (idx : Nat) : SectorCoords :=
  let z := idx / (SECTOR_DIM * SECTOR_DIM)
  let remaining1 := idx - z * SECTOR_DIM * SECTOR_DIM
  let y := remaining1 / SECTOR_DIM
  let remaining2 := remaining1 - y * SECTOR_DIM
  ⟨remaining2, y, z⟩

/-- `SectorData::block` from `src/entity/sector/data.rs`: array lookup at
`Self::index(sector_coords)`. -/
def SectorData.block (d : SectorData) (sector_coords : SectorCoords) : Block :=
  d.blocks (SectorData.index sector_coords)

/-- `SectorData::new` from `src/entity/sector/data.rs`: every array entry is
the default block (`Air`). -/
def SectorData.new : SectorData :=
  ⟨fun _ => Block.defaultBlock⟩

namespace Legacy

/-- The second `SectorData::index`, from `src/entity/sector.rs` (lines 71-77):
`x + y * SECTOR_LEN + z * SECTOR_LEN * SECTOR_LEN`.  This stale sibling of the
implementation in `data.rs` scales by `SECTOR_LEN` instead of `SECTOR_DIM`. -/
def SectorData.index (sector_coords : SectorCoords) : Nat :=
  sector_coords.x + sector_coords.y * SECTOR_LEN
    + sector_coords.z * SECTOR_LEN * SECTOR_LEN

end Legacy

/-! ## Round-trip lemmas for the index arithmetic -/

/-- Shared lemma: `coords` inverts `index` on every in-range triplet. -/
theorem coords_index_eq (x y z : Nat) (hx : x < SECTOR_DIM) (hy : y < SECTOR_DIM)
    (hz : z < SECTOR_DIM) :
    SectorData.coords (SectorData.index ⟨x, y, z⟩) = ⟨x, y, z⟩ := by
  simp only [SectorData.coords, SectorData.index, SECTOR_DIM] at *
  have hzq : (x + y * 16 + z * 16 * 16) / (16 * 16) = z := by omega
  rw [hzq]
  have hyq : (x + y * 16 + z * 16 * 16 - z * 16 * 16) / 16 = y := by omega
  rw [hyq]
  have : x + y * 16 + z * 16 * 16 - z * 16 * 16 - y * 16 = x := by omega
  rw [this]

/-- Shared lemma: `index` inverts `coords` on every in-range array index. -/
theorem index_coords_eq (i : Nat) (hi : i < SECTOR_LEN) :
    SectorData.index (SectorData.coords i) = i := by
  simp only [SectorData.coords, SectorData.index, SECTOR_DIM, SECTOR_LEN] at *
  omega

/-- Shared lemma: `index` of an in-range triplet is an in-range array index. -/
theorem index_lt_len (c : SectorCoords) (hx : c.x < SECTOR_DIM)
    (hy : c.y < SECTOR_DIM) (hz : c.z < SECTOR_DIM) :
    SectorData.index c < SECTOR_LEN := by
  simp only [SectorData.index, SECTOR_DIM, SECTOR_LEN] at *
  omega

/-- Claim C1: converting in-range coordinates to a linear index with
`SectorData::index` and back with `SectorData::coords` returns the original
triplet, and conversely `index` inverts `coords` on all `16³ = 4096` array
indices, so the two maps form a bijection round-trip. -/
theorem c1_index_coords_roundtrip (x y z : Nat) (hx : x < SECTOR_DIM)
    (hy : y < SECTOR_DIM) (hz : z < SECTOR_DIM) :
    SectorData.coords (SectorData.index ⟨x, y, z⟩) = ⟨x, y, z⟩ ∧
      ∀ i, i < SECTOR_LEN → SectorData.index (SectorData.coords i) = i := by
  refine ⟨coords_index_eq x y z hx hy hz, fun i hi => index_coords_eq i hi⟩

/-- Witness for C1 at the concrete triplet `(3, 5, 7)`. -/
theorem c1_index_coords_roundtrip_witness :
    SectorData.coords (SectorData.index ⟨3, 5, 7⟩) = ⟨3, 5, 7⟩ ∧
      ∀ i, i < SECTOR_LEN → SectorData.index (SectorData.coords i) = i :=
  c1_index_coords_roundtrip 3 5 7 (by decide) (by decide) (by decide)

/-- Claim C2 (counter-evidence): the `SectorData::index` in
`src/entity/sector.rs` does not compute `x + y*DIM + z*DIM²`.  At the
coordinate `(0, 1, 0)` it yields `SECTOR_LEN = 4096`, which already lies
outside the `SECTOR_LEN`-element `blocks` array that its own `test()`
routine indexes with it, while the formula claimed by the spec (and computed
by the `data.rs` implementation) gives `16`. -/
theorem c2_legacy_index_out_of_bounds :
    Legacy.SectorData.index ⟨0, 1, 0⟩ = SECTOR_LEN ∧
      ¬ Legacy.SectorData.index ⟨0, 1, 0⟩ < SECTOR_LEN ∧
      Legacy.SectorData.index ⟨0, 1, 0⟩ ≠
        0 + 1 * SECTOR_DIM + 0 * SECTOR_DIM * SECTOR_DIM ∧
      SectorData.index ⟨0, 1, 0⟩ = 0 + 1 * SECTOR_DIM + 0 * SECTOR_DIM * SECTOR_DIM := by
  refine ⟨by decide, by decide, by decide, by decide⟩

/-! ## Mesh generator embedding (`src/entity/sector/meshgen.rs`) -/

/-- A 3-vector of exact rationals, modelling `[f32; 3]`. -/
abbrev Vec3 := ℚ × ℚ × ℚ

/-- Component access `v[i]` on a modelled `[f32; 3]`.  The mesh generator only
ever uses component indices `0`, `1`, `2`. -/
def Vec3.comp (v : Vec3) : Nat → ℚ
  | 0 => v.1
  | 1 => v.2.1
  | _ => v.2.2

/-- `VoxelVertex` from `src/vertexattrib.rs`: a position attribute and a
texture-coordinate attribute (the `PosAttrib`/`UvAttrib` wrappers hold the
raw arrays and are elided). -/
structure VoxelVertex where
  pos : Vec3
  uv : ℚ × ℚ
deriving DecidableEq

/-- The fields of `png::OutputInfo` read by the mesh generator: the pixel
width and height of the texture atlas. -/
structure OutputInfo where
  width : Nat
  height : Nat
deriving DecidableEq

/-- `TILE_SIZE` from `src/entity/sector/meshgen.rs`. -/
def TILE_SIZE : Nat := 16

/-- `TILE_SIZE_F32` from `src/entity/sector/meshgen.rs`, as a rational. -/
def TILE_SIZE_Q : ℚ := 16

/-- `Face` from `src/entity/sector/meshgen.rs`: the static description of one
cube face (side, its four corner indices into `POSITIONS`, texture flip flags,
and which spatial axes map to texture U and V). -/
structure Face where
  side : Side
  positions : List Nat
  flip_u : Bool
  flip_v : Bool
  u_idx : Nat
  v_idx : Nat
deriving DecidableEq

/-- `FACES` from `src/entity/sector/meshgen.rs`. -/
def FACES : List Face :=
  [⟨Side.Front, [4, 5, 6, 7], false, false, 0, 1⟩,
   ⟨Side.Back, [3, 2, 1, 0], true, false, 0, 1⟩,
   ⟨Side.RightSide, [2, 6, 5, 1], true, false, 2, 1⟩,
   ⟨Side.LeftSide, [7, 3, 0, 4], false, false, 2, 1⟩,
   ⟨Side.Top, [7, 6, 2, 3], false, true, 0, 2⟩,
   ⟨Side.Bottom, [0, 1, 5, 4], false, false, 0, 2⟩]

/-- `POSITIONS` from `src/entity/sector/meshgen.rs`: the eight unit-cube
corners. -/
def POSITIONS : List Vec3 :=
  [(0, 0, 0), (1, 0, 0), (1, 1, 0), (0, 1, 0),
   (0, 0, 1), (1, 0, 1), (1, 1, 1), (0, 1, 1)]

/-- `translate3` from `src/entity/sector/meshgen.rs`. -/
def translate3 (orig : Vec3) (factors : Vec3) : Vec3 :=
  (factors.1 + orig.1, factors.2.1 + orig.2.1, factors.2.2 + orig.2.2)

/-- `PreGeometry` from `src/entity/sector/meshgen.rs`: CPU-side vertex and
index buffers. -/
structure PreGeometry where
  vertices : List VoxelVertex
  indices : List Nat

/-- `tex_coord` from `src/entity/sector/meshgen.rs`, modelled over `ℚ`.
Returns `none` exactly when `Block::texture_id` hits its `unreachable!()`
branch (the `Air` block).  The source also computes a `tiles_per_col` value
it never reads; it is omitted here.  The float literal `0.5` is the rational
`1/2`. -/
def tex_coord (tex_info : OutputInfo) (blk : Block) (orig : Vec3) (face : Face) :
    Option (ℚ × ℚ) :=
  let flip_u := face.flip_u
  let flip_v := face.flip_v
  let u_idx := face.u_idx
  let v_idx := face.v_idx
  let blk_side := face.side
  let width := tex_info.width
  let height := tex_info.height
  let tiles_per_row := width / TILE_SIZE
  let tile_u := if flip_u then -(orig.comp u_idx) + 1 else orig.comp u_idx
  let tile_v := if flip_v then orig.comp v_idx else -(orig.comp v_idx) + 1
  let offset : ℚ := 1 / (16 * TILE_SIZE_Q)
  let tile_u_adj := if tile_u < 1/2 then tile_u + offset else tile_u - offset
  let tile_v_adj := if tile_v < 1/2 then tile_v + offset else tile_v - offset
  match blk.texture_id blk_side with
  | none => none
  | some blk_id =>
    let atlas_u : ℚ := (blk_id % tiles_per_row : Nat)
    let atlas_v : ℚ := (blk_id / tiles_per_row : Nat)
    some ((tile_u_adj + atlas_u) * TILE_SIZE_Q / (width : ℚ),
          (tile_v_adj + atlas_v) * TILE_SIZE_Q / (height : ℚ))

/-- The four vertices the inner `for pos_idx in &f.positions` loop of
`gen_terrain` pushes for one face, in push order; `none` if any texture
coordinate lookup reaches the `unreachable!()` branch. -/
def faceVertexRow (tex_info : OutputInfo) (blk : Block) (factors : Vec3) (f : Face) :
    List Nat → Option (List VoxelVertex)
  | [] => some []
  | pos_idx :: rest =>
    let orig := POSITIONS.getD pos_idx (0, 0, 0)
    match tex_coord tex_info blk orig f with
    | none => none
    | some uv =>
      match faceVertexRow tex_info blk factors f rest with
      | none => none
      | some vs => some (⟨translate3 orig factors, uv⟩ :: vs)

/-- The vertices pushed for face `f` (its `positions` walked in order). -/
def faceVertices (tex_info : OutputInfo) (blk : Block) (factors : Vec3) (f : Face) :
    Option (List VoxelVertex) :=
  faceVertexRow tex_info blk factors f f.positions

/-- The running state of `gen_terrain`'s loop: the `vertices` and `indices`
vectors and the `current_index` counter. -/
structure MeshState where
  vertices : List VoxelVertex
  indices : List Nat
  currentIndex : Nat

/-- The occlusion test of `gen_terrain`: the face is skipped when a neighbor
coordinate exists and the block there is not transparent
(`if let Some(adj_coords) = coords.neighbor(f.side) { if !adj_block.is_transparent() { continue } }`). -/
def faceOccluded (voxels : SectorData) (coords : SectorCoords) (f : Face) : Bool :=
  match coords.neighbor f.side with
  | some adj_coords => !(voxels.block adj_coords).is_transparent
  | none => false

/-- One iteration of `gen_terrain`'s `for f in &FACES` loop: skip the face if
occluded, otherwise push its four vertices, its six indices
`(i, i+1, i+2, i, i+2, i+3)`, and advance the counter by 4. -/
def processFace (tex_info : OutputInfo) (voxels : SectorData) (coords : SectorCoords)
    (blk : Block) (factors : Vec3) (st : MeshState) (f : Face) : Option MeshState :=
  if faceOccluded voxels coords f then some st
  else
    match faceVertices tex_info blk factors f with
    | none => none
    | some vs =>
      some ⟨st.vertices ++ vs,
        st.indices ++ [st.currentIndex, st.currentIndex + 1, st.currentIndex + 2,
          st.currentIndex, st.currentIndex + 2, st.currentIndex + 3],
        st.currentIndex + 4⟩

/-- One iteration of `gen_terrain`'s outer `for (coords, blk) in voxels` loop
(iteration yields `(SectorData::coords(i), blocks[i])` for `i` in scan
order): skip padding-shell voxels, skip `Air`, otherwise process the six
faces. -/
def processVoxel (tex_info : OutputInfo) (voxels : SectorData) (st : MeshState)
    (i : Nat) : Option MeshState :=
  let coords := SectorData.coords i
  let blk := voxels.blocks i
  if coords.x = SECTOR_MIN ∨ coords.x = SECTOR_MAX ∨ coords.y = SECTOR_MIN
      ∨ coords.y = SECTOR_MAX ∨ coords.z = SECTOR_MIN ∨ coords.z = SECTOR_MAX then
    some st
  else if blk = Block.Air then some st
  else
    let factors : Vec3 := ((coords.x : ℚ), (coords.y : ℚ), (coords.z : ℚ))
    FACES.foldlM (processFace tex_info voxels coords blk factors) st

/-- `gen_terrain` from `src/entity/sector/meshgen.rs`.  The outer `Option`
models the only panic the body can raise through this embedding, the
`unreachable!()` in `Block::texture_id`; the inner `Option` is the source's
return value (`None` when no face was emitted). -/
def gen_terrain (tex_info : OutputInfo) (voxels : SectorData) :
    Option (Option PreGeometry) :=
  match (List.range SECTOR_LEN).foldlM (processVoxel tex_info voxels) ⟨[], [], 0⟩ with
  | none => none
  | some st =>
    if st.currentIndex = 0 then some none
    else some (some ⟨st.vertices, st.indices⟩)

/-! ## Characterizing the mesh generation fold -/

/-- Shared lemma: `texture_id` is defined (does not hit `unreachable!()`) on
every block other than `Air`, for every side. -/
theorem texture_id_isSome (blk : Block) (s : Side) (h : blk ≠ Block.Air) :
    ∃ tid, blk.texture_id s = some tid := by
  cases blk <;> cases s <;> simp [Block.texture_id] at h ⊢

/-- Shared lemma: `tex_coord` is defined on every non-`Air` block. -/
theorem tex_coord_isSome (tex_info : OutputInfo) (blk : Block) (orig : Vec3)
    (f : Face) (h : blk ≠ Block.Air) :
    ∃ uv, tex_coord tex_info blk orig f = some uv := by
  obtain ⟨tid, htid⟩ := texture_id_isSome blk f.side h
  simp only [tex_coord, htid]
  exact ⟨_, rfl⟩

/-- Shared lemma: for a non-`Air` block the vertex row for any corner list is
defined and has one vertex per corner. -/
theorem faceVertexRow_isSome (tex_info : OutputInfo) (blk : Block) (factors : Vec3)
    (f : Face) (h : blk ≠ Block.Air) :
    ∀ ps : List Nat, ∃ vs, faceVertexRow tex_info blk factors f ps = some vs ∧
      vs.length = ps.length := by
  intro ps
  induction ps with
  | nil => exact ⟨[], rfl, rfl⟩
  | cons p rest ih =>
    obtain ⟨vs, hvs, hlen⟩ := ih
    obtain ⟨uv, huv⟩ := tex_coord_isSome tex_info blk (POSITIONS.getD p (0, 0, 0)) f h
    refine ⟨⟨translate3 (POSITIONS.getD p (0, 0, 0)) factors, uv⟩ :: vs, ?_, ?_⟩
    · simp only [faceVertexRow, huv, hvs]
    · simp [hlen]

/-- Total companion of `faceVertices`, used to state the fold
characterization; it agrees with `faceVertices` whenever the block is not
`Air` (`faceVertices_eq`). -/
def faceVerticesD (tex_info : OutputInfo) (blk : Block) (factors : Vec3)
    (f : Face) : List VoxelVertex :=
  (faceVertices tex_info blk factors f).getD []

/-- Shared lemma: for a non-`Air` block, `faceVertices` succeeds and returns
`faceVerticesD`, with one vertex per entry of `f.positions`. -/
theorem faceVertices_eq (tex_info : OutputInfo) (blk : Block) (factors : Vec3)
    (f : Face) (h : blk ≠ Block.Air) :
    faceVertices tex_info blk factors f = some (faceVerticesD tex_info blk factors f) ∧
      (faceVerticesD tex_info blk factors f).length = f.positions.length := by
  obtain ⟨vs, hvs, hlen⟩ := faceVertexRow_isSome tex_info blk factors f h f.positions
  have : faceVertices tex_info blk factors f = some vs := hvs
  refine ⟨?_, ?_⟩ <;> simp [faceVerticesD, this, hlen]

/-- The index values `gen_terrain` pushes for `n` consecutive emitted faces
when the running vertex counter starts at `b`: two triangles
`(b, b+1, b+2)` and `(b, b+2, b+3)` per face, the counter advancing by 4. -/
def facesIndicesFrom : Nat → Nat → List Nat
  | _, 0 => []
  | b, n + 1 =>
    [b, b + 1, b + 2, b, b + 2, b + 3] ++ facesIndicesFrom (b + 4) n

theorem facesIndicesFrom_length (b n : Nat) :
    (facesIndicesFrom b n).length = 6 * n := by
  induction n generalizing b with
  | zero => rfl
  | succ n ih => simp [facesIndicesFrom, ih]; omega

theorem facesIndicesFrom_append (m : Nat) :
    ∀ b n, facesIndicesFrom b (m + n) = facesIndicesFrom b m ++ facesIndicesFrom (b + 4 * m) n := by
  induction m with
  | zero => intro b n; simp [facesIndicesFrom]
  | succ m ih =>
    intro b n
    have hsum : m + 1 + n = (m + n) + 1 := by omega
    rw [hsum]
    simp only [facesIndicesFrom, ih (b + 4) n, List.append_assoc]
    have : b + 4 + 4 * m = b + 4 * (m + 1) := by omega
    rw [this]

theorem facesIndicesFrom_mem (b n x : Nat) (hx : x ∈ facesIndicesFrom b n) :
    x < b + 4 * n := by
  induction n generalizing b with
  | zero => simp [facesIndicesFrom] at hx
  | succ n ih =>
    simp only [facesIndicesFrom, List.mem_append, List.mem_cons,
      List.not_mem_nil, or_false] at hx
    rcases hx with h | h
    · rcases h with h | h | h | h | h | h <;> omega
    · have := ih (b + 4) h
      omega

/-- Shared lemma: for a non-`Air` block, folding `processFace` over a face
list appends the vertices of the unoccluded faces, their index pattern, and
advances the counter by 4 per emitted face. -/
theorem foldlM_processFace_char (tex_info : OutputInfo) (voxels : SectorData)
    (coords : SectorCoords) (blk : Block) (factors : Vec3) (h : blk ≠ Block.Air)
    (fs : List Face) :
    ∀ st : MeshState,
      fs.foldlM (processFace tex_info voxels coords blk factors) st =
        some ⟨st.vertices ++
            (fs.filter (fun f => !faceOccluded voxels coords f)).flatMap
              (faceVerticesD tex_info blk factors),
          st.indices ++ facesIndicesFrom st.currentIndex
            (fs.filter (fun f => !faceOccluded voxels coords f)).length,
          st.currentIndex + 4 *
            (fs.filter (fun f => !faceOccluded voxels coords f)).length⟩ := by
  induction fs with
  | nil =>
    intro st
    simp [List.foldlM, facesIndicesFrom]
  | cons f fs ih =>
    intro st
    rw [List.foldlM_cons]
    by_cases hocc : faceOccluded voxels coords f = true
    · have hfilter : (f :: fs).filter (fun f => !faceOccluded voxels coords f) =
          fs.filter (fun f => !faceOccluded voxels coords f) :=
        List.filter_cons_of_neg (by simp [hocc])
      have hpf : processFace tex_info voxels coords blk factors st f = some st := by
        simp [processFace, hocc]
      rw [hpf, hfilter]
      simp only [Option.bind_eq_bind, Option.some_bind, ih]
    · have hne : faceOccluded voxels coords f = false := by
        simpa using hocc
      have hfilter : (f :: fs).filter (fun f => !faceOccluded voxels coords f) =
          f :: fs.filter (fun f => !faceOccluded voxels coords f) :=
        List.filter_cons_of_pos (by simp [hne])
      obtain ⟨hfv, hlen⟩ := faceVertices_eq tex_info blk factors f h
      have hpf : processFace tex_info voxels coords blk factors st f =
          some ⟨st.vertices ++ faceVerticesD tex_info blk factors f,
            st.indices ++ [st.currentIndex, st.currentIndex + 1, st.currentIndex + 2,
              st.currentIndex, st.currentIndex + 2, st.currentIndex + 3],
            st.currentIndex + 4⟩ := by
        simp [processFace, hne, hfv]
      rw [hpf, hfilter]
      simp only [Option.bind_eq_bind, Option.some_bind, ih, List.length_cons,
        List.flatMap_cons, Option.some.injEq, MeshState.mk.injEq]
      refine ⟨by simp [List.append_assoc], ?_, by omega⟩
      have hplus : (List.filter (fun f => !faceOccluded voxels coords f) fs).length + 1 =
          1 + (List.filter (fun f => !faceOccluded voxels coords f) fs).length := by omega
      rw [hplus, facesIndicesFrom_append 1]
      simp [facesIndicesFrom, List.append_assoc]

/-- The faces `gen_terrain` emits for the voxel at array index `i`: none for
a padding-shell voxel or an `Air` voxel, otherwise the unoccluded entries of
`FACES`. -/
def voxelFaces (voxels : SectorData) (i : Nat) : List Face :=
  let coords := SectorData.coords i
  if coords.x = SECTOR_MIN ∨ coords.x = SECTOR_MAX ∨ coords.y = SECTOR_MIN
      ∨ coords.y = SECTOR_MAX ∨ coords.z = SECTOR_MIN ∨ coords.z = SECTOR_MAX then
    []
  else if voxels.blocks i = Block.Air then []
  else FACES.filter (fun f => !faceOccluded voxels coords f)

/-- The vertices `gen_terrain` pushes for the voxel at array index `i`. -/
def voxelVerts (tex_info : OutputInfo) (voxels : SectorData) (i : Nat) :
    List VoxelVertex :=
  let coords := SectorData.coords i
  (voxelFaces voxels i).flatMap
    (faceVerticesD tex_info (voxels.blocks i)
      ((coords.x : ℚ), (coords.y : ℚ), (coords.z : ℚ)))

/-- Shared lemma: one outer loop iteration appends exactly the voxel's
emitted vertices and index pattern and advances the counter by 4 per face. -/
theorem processVoxel_char (tex_info : OutputInfo) (voxels : SectorData)
    (st : MeshState) (i : Nat) :
    processVoxel tex_info voxels st i =
      some ⟨st.vertices ++ voxelVerts tex_info voxels i,
        st.indices ++ facesIndicesFrom st.currentIndex (voxelFaces voxels i).length,
        st.currentIndex + 4 * (voxelFaces voxels i).length⟩ := by
  by_cases hshell : (SectorData.coords i).x = SECTOR_MIN ∨ (SectorData.coords i).x = SECTOR_MAX
      ∨ (SectorData.coords i).y = SECTOR_MIN ∨ (SectorData.coords i).y = SECTOR_MAX
      ∨ (SectorData.coords i).z = SECTOR_MIN ∨ (SectorData.coords i).z = SECTOR_MAX
  · simp [processVoxel, voxelVerts, voxelFaces, hshell, facesIndicesFrom]
  · by_cases hair : voxels.blocks i = Block.Air
    · simp [processVoxel, voxelVerts, voxelFaces, hshell, hair, facesIndicesFrom]
    · simp only [processVoxel, voxelVerts, voxelFaces, hshell, hair, if_false,
        ite_false]
      rw [foldlM_processFace_char tex_info voxels (SectorData.coords i)
        (voxels.blocks i) _ hair FACES st]

/-- Shared lemma: folding the outer loop over any index list appends the
concatenated per-voxel vertices and index patterns. -/
theorem foldlM_processVoxel_char (tex_info : OutputInfo) (voxels : SectorData)
    (l : List Nat) :
    ∀ st : MeshState,
      l.foldlM (processVoxel tex_info voxels) st =
        some ⟨st.vertices ++ l.flatMap (voxelVerts tex_info voxels),
          st.indices ++ facesIndicesFrom st.currentIndex
            ((l.map (fun i => (voxelFaces voxels i).length)).sum),
          st.currentIndex + 4 * ((l.map (fun i => (voxelFaces voxels i).length)).sum)⟩ := by
  induction l with
  | nil => intro st; simp [List.foldlM, facesIndicesFrom]
  | cons i l ih =>
    intro st
    rw [List.foldlM_cons, processVoxel_char]
    simp only [Option.bind_eq_bind, Option.some_bind, ih, List.map_cons,
      List.sum_cons, List.flatMap_cons, Option.some.injEq, MeshState.mk.injEq]
    refine ⟨by simp [List.append_assoc], ?_, by omega⟩
    rw [facesIndicesFrom_append ((voxelFaces voxels i).length)]
    simp [List.append_assoc]

/-- The total number of faces `gen_terrain` emits for a sector. -/
def totalFaces (voxels : SectorData) : Nat :=
  ((List.range SECTOR_LEN).map (fun i => (voxelFaces voxels i).length)).sum

/-- All vertices `gen_terrain` pushes for a sector, in push order. -/
def allVerts (tex_info : OutputInfo) (voxels : SectorData) : List VoxelVertex :=
  (List.range SECTOR_LEN).flatMap (voxelVerts tex_info voxels)

/-- Shared lemma: the outer fold of `gen_terrain` started from the empty
state produces all per-voxel vertices, the full index pattern, and a counter
of 4 per emitted face. -/
theorem foldlM_processVoxel_init (tex_info : OutputInfo) (voxels : SectorData) :
    (List.range SECTOR_LEN).foldlM (processVoxel tex_info voxels) ⟨[], [], 0⟩ =
      some ⟨allVerts tex_info voxels, facesIndicesFrom 0 (totalFaces voxels),
        4 * totalFaces voxels⟩ := by
  refine (foldlM_processVoxel_char tex_info voxels (List.range SECTOR_LEN) ⟨[], [], 0⟩).trans ?_
  rw [allVerts, totalFaces]
  rw [List.nil_append, List.nil_append, Nat.zero_add]

/-- Shared lemma: the value of `gen_terrain` as a function of its loop's
final state. -/
theorem gen_terrain_abstract (tex_info : OutputInfo) (voxels : SectorData)
    (vs : List VoxelVertex) (ind : List Nat) (ci : Nat)
    (hfold : (List.range SECTOR_LEN).foldlM (processVoxel tex_info voxels)
      ⟨[], [], 0⟩ = some ⟨vs, ind, ci⟩) :
    gen_terrain tex_info voxels =
      if ci = 0 then some none else some (some ⟨vs, ind⟩) := by
  unfold gen_terrain
  rw [hfold]

/-- Shared lemma: the closed form of `gen_terrain`.  It never reaches the
`unreachable!()` panic (the result is always `some _`), returns the source's
`None` exactly when no face was emitted, and otherwise returns the
concatenated vertices and the running index pattern. -/
theorem gen_terrain_char (tex_info : OutputInfo) (voxels : SectorData) :
    gen_terrain tex_info voxels =
      some (if totalFaces voxels = 0 then none
        else some ⟨allVerts tex_info voxels, facesIndicesFrom 0 (totalFaces voxels)⟩) := by
  rw [gen_terrain_abstract tex_info voxels _ _ _ (foldlM_processVoxel_init tex_info voxels)]
  by_cases h : totalFaces voxels = 0
  · rw [if_pos (by omega : 4 * totalFaces voxels = 0), if_pos h]
  · rw [if_neg (by omega : ¬ 4 * totalFaces voxels = 0), if_neg h]

/-- Shared lemma: every face in `voxelFaces` is one of the six `FACES` and so
has exactly four corner indices. -/
theorem voxelFaces_positions_length (voxels : SectorData) (i : Nat) (f : Face)
    (hf : f ∈ voxelFaces voxels i) : f.positions.length = 4 := by
  have hmem : f ∈ FACES := by
    simp only [voxelFaces] at hf
    split at hf
    · simp at hf
    · split at hf
      · simp at hf
      · exact List.mem_of_mem_filter hf
  have hall : ∀ g ∈ FACES, g.positions.length = 4 := by decide
  exact hall f hmem

/-- Shared lemma: a voxel with emitted faces is not `Air`. -/
theorem voxelFaces_ne_air (voxels : SectorData) (i : Nat) (f : Face)
    (hf : f ∈ voxelFaces voxels i) : voxels.blocks i ≠ Block.Air := by
  intro hair
  simp only [voxelFaces, hair] at hf
  split at hf <;> simp at hf

/-- Shared lemma: the length of a `flatMap` whose pieces all have length `k`. -/
theorem length_flatMap_const {α β : Type} (g : α → List β) (k : Nat) :
    ∀ l : List α, (∀ a ∈ l, (g a).length = k) → (l.flatMap g).length = k * l.length := by
  intro l
  induction l with
  | nil => intro _; simp
  | cons a l ih =>
    intro h
    simp only [List.flatMap_cons, List.length_append, List.length_cons]
    rw [h a (List.mem_cons_self a l), ih (fun b hb => h b (List.mem_cons_of_mem a hb))]
    ring

/-- Shared lemma: a voxel's vertex count is four times its face count. -/
theorem voxelVerts_length (tex_info : OutputInfo) (voxels : SectorData) (i : Nat) :
    (voxelVerts tex_info voxels i).length = 4 * (voxelFaces voxels i).length := by
  have hlen : ∀ f ∈ voxelFaces voxels i,
      (faceVerticesD tex_info (voxels.blocks i)
        (((SectorData.coords i).x : ℚ), ((SectorData.coords i).y : ℚ),
          ((SectorData.coords i).z : ℚ)) f).length = 4 := by
    intro f hf
    have hair := voxelFaces_ne_air voxels i f hf
    have h4 := voxelFaces_positions_length voxels i f hf
    have := (faceVertices_eq tex_info (voxels.blocks i)
      (((SectorData.coords i).x : ℚ), ((SectorData.coords i).y : ℚ),
        ((SectorData.coords i).z : ℚ)) f hair).2
    omega
  simpa [voxelVerts] using
    length_flatMap_const _ 4 (voxelFaces voxels i) hlen

/-- Shared lemma: total vertex count is four per emitted face. -/
theorem allVerts_length (tex_info : OutputInfo) (voxels : SectorData) :
    (allVerts tex_info voxels).length = 4 * totalFaces voxels := by
  rw [allVerts, totalFaces, List.length_flatMap]
  have key : ∀ l : List Nat, (l.map (List.length ∘ voxelVerts tex_info voxels)).sum
      = 4 * (l.map (fun i => (voxelFaces voxels i).length)).sum := by
    intro l
    induction l with
    | nil => simp
    | cons a l ih =>
      simp only [List.map_cons, List.sum_cons, Function.comp_apply,
        voxelVerts_length, ih]
      ring
  exact key _

/-- Claim C7: `gen_terrain` never reaches the `unreachable!()` branch of
`Block::texture_id`: for every atlas metadata and every sector the embedded
run returns a value (`Air` voxels are skipped before any texture lookup, and
`texture_id` is total on all other blocks). -/
theorem c7_texture_lookup_safe (tex_info : OutputInfo) (voxels : SectorData) :
    ∃ r, gen_terrain tex_info voxels = some r :=
  ⟨_, gen_terrain_char tex_info voxels⟩

/-- Claim C3: a voxel on the outer shell (any coordinate equal to `0` or to
`SECTOR_MAX = 15`) contributes nothing: the loop iteration for it leaves the
vertex buffer, the index buffer and the counter unchanged, and its emitted
face list is empty, regardless of its block kind. -/
theorem c3_shell_voxels_skipped (tex_info : OutputInfo) (voxels : SectorData)
    (st : MeshState) (x y z : Nat) (hx : x < SECTOR_DIM) (hy : y < SECTOR_DIM)
    (hz : z < SECTOR_DIM)
    (hshell : x = SECTOR_MIN ∨ x = SECTOR_MAX ∨ y = SECTOR_MIN ∨ y = SECTOR_MAX
      ∨ z = SECTOR_MIN ∨ z = SECTOR_MAX) :
    processVoxel tex_info voxels st (SectorData.index ⟨x, y, z⟩) = some st ∧
      voxelFaces voxels (SectorData.index ⟨x, y, z⟩) = [] := by
  have hc := coords_index_eq x y z hx hy hz
  constructor
  · simp only [processVoxel, hc]
    rw [if_pos hshell]
  · simp only [voxelFaces, hc]
    rw [if_pos hshell]

/-- Witness for C3: the shell voxel `(0, 5, 5)` of the all-Air sector is
skipped. -/
theorem c3_shell_voxels_skipped_witness :
    processVoxel ⟨256, 256⟩ SectorData.new ⟨[], [], 0⟩
        (SectorData.index ⟨0, 5, 5⟩) = some ⟨[], [], 0⟩ ∧
      voxelFaces SectorData.new (SectorData.index ⟨0, 5, 5⟩) = [] :=
  c3_shell_voxels_skipped ⟨256, 256⟩ SectorData.new ⟨[], [], 0⟩ 0 5 5
    (by decide) (by decide) (by decide) (Or.inl rfl)

/-- Claim C6: `gen_terrain` returns the source's `None` ("no geometry")
whenever zero faces were emitted — in particular on every all-Air sector —
and a populated `Some` only when at least one face was emitted. -/
theorem c6_no_geometry_is_none (tex_info : OutputInfo) (voxels : SectorData) :
    (totalFaces voxels = 0 → gen_terrain tex_info voxels = some none) ∧
      ((∀ j, j < SECTOR_LEN → voxels.blocks j = Block.Air) →
        gen_terrain tex_info voxels = some none) ∧
      (∀ pg, gen_terrain tex_info voxels = some (some pg) →
        1 ≤ totalFaces voxels) := by
  refine ⟨?_, ?_, ?_⟩
  · intro h
    rw [gen_terrain_char, if_pos h]
  · intro hair
    have hT : totalFaces voxels = 0 := by
      rw [totalFaces]
      apply List.sum_eq_zero
      intro n hn
      simp only [List.mem_map, List.mem_range] at hn
      obtain ⟨i, hi, rfl⟩ := hn
      simp [voxelFaces, hair i hi]
    rw [gen_terrain_char, if_pos hT]
  · intro pg hpg
    by_contra hlt
    have hT : totalFaces voxels = 0 := by omega
    rw [gen_terrain_char, if_pos hT] at hpg
    simp at hpg

/-- Witness for C6: the all-Air sector `SectorData::new()` yields no
geometry. -/
theorem c6_no_geometry_is_none_witness :
    gen_terrain ⟨256, 256⟩ SectorData.new = some none :=
  (c6_no_geometry_is_none ⟨256, 256⟩ SectorData.new).2.1 (fun _ _ => rfl)

/-- Claim C10: every populated result of `gen_terrain` is structurally
well-formed: for some face count `F ≥ 1` there are exactly `4·F` vertices
and `6·F` indices, and every index value refers to an existing vertex. -/
theorem c10_geometry_well_formed (tex_info : OutputInfo) (voxels : SectorData)
    (pg : PreGeometry) (h : gen_terrain tex_info voxels = some (some pg)) :
    ∃ F, 1 ≤ F ∧ pg.vertices.length = 4 * F ∧ pg.indices.length = 6 * F ∧
      ∀ ix ∈ pg.indices, ix < pg.vertices.length := by
  have hchar := gen_terrain_char tex_info voxels
  rw [h] at hchar
  by_cases hT : totalFaces voxels = 0
  · rw [if_pos hT] at hchar
    simp at hchar
  · rw [if_neg hT] at hchar
    have hpg : pg = ⟨allVerts tex_info voxels,
        facesIndicesFrom 0 (totalFaces voxels)⟩ :=
      Option.some.inj (Option.some.inj hchar)
    have hv : pg.vertices = allVerts tex_info voxels := by rw [hpg]
    have hi : pg.indices = facesIndicesFrom 0 (totalFaces voxels) := by rw [hpg]
    refine ⟨totalFaces voxels, by omega, ?_, ?_, ?_⟩
    · rw [hv, allVerts_length tex_info voxels]
    · rw [hi, facesIndicesFrom_length 0 (totalFaces voxels)]
    · intro ix hix
      rw [hi] at hix
      have hmem := facesIndicesFrom_mem 0 (totalFaces voxels) ix hix
      rw [hv, allVerts_length tex_info voxels]
      omega

/-! ## Occlusion behaviour (claim C4) -/

/-- Shared lemma: a neighbor coordinate of an in-range coordinate is in
range. -/
theorem neighbor_bounds (c adj : SectorCoords) (s : Side)
    (hx : c.x < SECTOR_DIM) (hy : c.y < SECTOR_DIM) (hz : c.z < SECTOR_DIM)
    (hn : c.neighbor s = some adj) :
    adj.x < SECTOR_DIM ∧ adj.y < SECTOR_DIM ∧ adj.z < SECTOR_DIM := by
  cases s <;> simp only [SectorCoords.neighbor] at hn <;> split at hn <;>
    first
    | (injection hn with h2
       subst h2
       dsimp only
       simp only [SECTOR_MAX, SECTOR_MIN, SECTOR_DIM] at *
       omega)
    | exact Option.noConfusion hn

/-- Shared lemma: a face listed in `voxelFaces` passed the occlusion test. -/
theorem voxelFaces_not_occluded (voxels : SectorData) (i : Nat) (f : Face)
    (hf : f ∈ voxelFaces voxels i) :
    faceOccluded voxels (SectorData.coords i) f = false := by
  simp only [voxelFaces] at hf
  split at hf
  · simp at hf
  · split at hf
    · simp at hf
    · have hmem := List.of_mem_filter hf
      simpa using hmem

/-- Claim C4: for a non-Air voxel, a face is skipped exactly when its
neighbor coordinate exists and holds a non-transparent block (skipping leaves
the state untouched), it is emitted (4 vertices, counter advanced by 4)
whenever the neighbor is transparent or absent; and for two adjacent
non-transparent voxels the shared face is emitted by neither side. -/
theorem c4_occlusion (tex_info : OutputInfo) (voxels : SectorData) :
    (∀ (c : SectorCoords) (blk : Block) (factors : Vec3) (st : MeshState) (f : Face),
      blk ≠ Block.Air →
      ((faceOccluded voxels c f = true ↔
          ∃ adj, c.neighbor f.side = some adj ∧
            (voxels.block adj).is_transparent = false) ∧
        (faceOccluded voxels c f = true →
          processFace tex_info voxels c blk factors st f = some st) ∧
        (faceOccluded voxels c f = false →
          ∃ vs, vs.length = f.positions.length ∧
            processFace tex_info voxels c blk factors st f =
              some ⟨st.vertices ++ vs,
                st.indices ++ [st.currentIndex, st.currentIndex + 1,
                  st.currentIndex + 2, st.currentIndex, st.currentIndex + 2,
                  st.currentIndex + 3],
                st.currentIndex + 4⟩))) ∧
      (∀ (c adj : SectorCoords) (s : Side),
        c.x < SECTOR_DIM → c.y < SECTOR_DIM → c.z < SECTOR_DIM →
        c.neighbor s = some adj →
        (voxels.block c).is_transparent = false →
        (voxels.block adj).is_transparent = false →
        (∀ f, f ∈ FACES → f.side = s →
          f ∉ voxelFaces voxels (SectorData.index c)) ∧
        (∀ f, f ∈ FACES → adj.neighbor f.side = some c →
          f ∉ voxelFaces voxels (SectorData.index adj))) := by
  constructor
  · intro c blk factors st f hblk
    refine ⟨?_, ?_, ?_⟩
    · cases hn : c.neighbor f.side with
      | none => simp [faceOccluded, hn]
      | some a => simp [faceOccluded, hn]
    · intro hocc
      simp [processFace, hocc]
    · intro hocc
      obtain ⟨hfv, hlen⟩ := faceVertices_eq tex_info blk factors f hblk
      refine ⟨faceVerticesD tex_info blk factors f, hlen, ?_⟩
      simp [processFace, hocc, hfv]
  · intro c adj s hx hy hz hn htc hta
    obtain ⟨hax, hay, haz⟩ := neighbor_bounds c adj s hx hy hz hn
    constructor
    · intro f _hf hside hmem
      have hocc := voxelFaces_not_occluded voxels (SectorData.index c) f hmem
      have hc : SectorData.coords (SectorData.index c) = c :=
        coords_index_eq c.x c.y c.z hx hy hz
      rw [hc] at hocc
      simp only [faceOccluded, hside, hn] at hocc
      simp [hta] at hocc
    · intro f _hf hn2 hmem
      have hocc := voxelFaces_not_occluded voxels (SectorData.index adj) f hmem
      have hc : SectorData.coords (SectorData.index adj) = adj :=
        coords_index_eq adj.x adj.y adj.z hax hay haz
      rw [hc] at hocc
      simp only [faceOccluded, hn2] at hocc
      simp [htc] at hocc

/-- Atlas metadata used by the concrete witnesses: a 256×256 atlas. -/
def texDemo : OutputInfo := ⟨256, 256⟩

/-- Witness fixture: a sector holding two adjacent interior `Stone` voxels at
`(2,2,2)` and `(3,2,2)`, all other entries `Air`. -/
def pairSector : SectorData :=
  ⟨fun i => if i = SectorData.index ⟨2, 2, 2⟩ ∨ i = SectorData.index ⟨3, 2, 2⟩
    then Block.Stone else Block.Air⟩

/-- Witness for C4: the shared face between the two `Stone` voxels of
`pairSector` is emitted by neither voxel. -/
theorem c4_occlusion_witness :
    (∀ f, f ∈ FACES → f.side = Side.RightSide →
      f ∉ voxelFaces pairSector (SectorData.index ⟨2, 2, 2⟩)) ∧
    (∀ f, f ∈ FACES → SectorCoords.neighbor ⟨3, 2, 2⟩ f.side = some ⟨2, 2, 2⟩ →
      f ∉ voxelFaces pairSector (SectorData.index ⟨3, 2, 2⟩)) :=
  (c4_occlusion texDemo pairSector).2 ⟨2, 2, 2⟩ ⟨3, 2, 2⟩ Side.RightSide
    (by decide) (by decide) (by decide) (by decide) (by decide) (by decide)

/-! ## Single interior voxel (claim C5) -/

/-- Shared lemma: a sum over `List.range n` whose terms vanish away from one
index equals the term at that index. -/
theorem sum_map_range_single (f : Nat → Nat) (n i0 : Nat) (hi : i0 < n)
    (h0 : ∀ j, j < n → j ≠ i0 → f j = 0) :
    ((List.range n).map f).sum = f i0 := by
  induction n with
  | zero => omega
  | succ n ih =>
    rw [List.range_succ, List.map_append, List.sum_append]
    by_cases hcase : i0 = n
    · subst hcase
      have hz : ((List.range i0).map f).sum = 0 := by
        apply List.sum_eq_zero
        intro a ha
        simp only [List.mem_map, List.mem_range] at ha
        obtain ⟨j, hj, rfl⟩ := ha
        exact h0 j (by omega) (by omega)
      simp [hz]
    · have hi' : i0 < n := by omega
      rw [ih hi' (fun j hj hne => h0 j (by omega) hne)]
      have hfn : f n = 0 := h0 n (by omega) (fun h => hcase h.symm)
      simp [hfn]

/-- Shared lemma: a `flatMap` over `List.range n` whose pieces vanish away
from one index equals the piece at that index. -/
theorem flatMap_range_single {β : Type} (g : Nat → List β) (n i0 : Nat)
    (hi : i0 < n) (h0 : ∀ j, j < n → j ≠ i0 → g j = []) :
    (List.range n).flatMap g = g i0 := by
  induction n with
  | zero => omega
  | succ n ih =>
    rw [List.range_succ, List.flatMap_append]
    by_cases hcase : i0 = n
    · subst hcase
      have hz : (List.range i0).flatMap g = [] := by
        apply List.flatMap_eq_nil_iff.mpr
        intro j hj
        exact h0 j (by simp only [List.mem_range] at hj; omega) (by
          simp only [List.mem_range] at hj; omega)
      simp [hz]
    · have hi' : i0 < n := by omega
      rw [ih hi' (fun j hj hne => h0 j (by omega) hne)]
      have hgn : g n = [] := h0 n (by omega) (fun h => hcase h.symm)
      simp [hgn]

/-- Shared lemma: every side of a strictly interior coordinate has an
in-range neighbor distinct from the coordinate itself. -/
theorem interior_neighbor (x y z : Nat) (hx0 : 0 < x) (hx1 : x < SECTOR_MAX)
    (hy0 : 0 < y) (hy1 : y < SECTOR_MAX) (hz0 : 0 < z) (hz1 : z < SECTOR_MAX)
    (s : Side) :
    ∃ adj : SectorCoords, SectorCoords.neighbor ⟨x, y, z⟩ s = some adj ∧
      adj.x < SECTOR_DIM ∧ adj.y < SECTOR_DIM ∧ adj.z < SECTOR_DIM ∧
      adj ≠ ⟨x, y, z⟩ := by
  have hb : x < 15 ∧ y < 15 ∧ z < 15 := by
    simp only [SECTOR_MAX, SECTOR_DIM] at hx1 hy1 hz1
    omega
  cases s
  case Front =>
    refine ⟨⟨x, y, z + 1⟩, by simp [SectorCoords.neighbor, hz1], ?_, ?_, ?_, ?_⟩ <;>
      simp [SECTOR_DIM, SectorCoords.mk.injEq] <;> omega
  case Back =>
    refine ⟨⟨x, y, z - 1⟩, by simp [SectorCoords.neighbor, SECTOR_MIN, hz0], ?_, ?_, ?_, ?_⟩ <;>
      simp [SECTOR_DIM, SectorCoords.mk.injEq] <;> omega
  case RightSide =>
    refine ⟨⟨x + 1, y, z⟩, by simp [SectorCoords.neighbor, hx1], ?_, ?_, ?_, ?_⟩ <;>
      simp [SECTOR_DIM, SectorCoords.mk.injEq] <;> omega
  case LeftSide =>
    refine ⟨⟨x - 1, y, z⟩, by simp [SectorCoords.neighbor, SECTOR_MIN, hx0], ?_, ?_, ?_, ?_⟩ <;>
      simp [SECTOR_DIM, SectorCoords.mk.injEq] <;> omega
  case Top =>
    refine ⟨⟨x, y + 1, z⟩, by simp [SectorCoords.neighbor, hy1], ?_, ?_, ?_, ?_⟩ <;>
      simp [SECTOR_DIM, SectorCoords.mk.injEq] <;> omega
  case Bottom =>
    refine ⟨⟨x, y - 1, z⟩, by simp [SectorCoords.neighbor, SECTOR_MIN, hy0], ?_, ?_, ?_, ?_⟩ <;>
      simp [SECTOR_DIM, SectorCoords.mk.injEq] <;> omega

/-- Shared lemma: a sector whose only non-Air voxel sits strictly in the
interior emits exactly the six faces of that voxel. -/
theorem single_voxel_gen (tex_info : OutputInfo) (voxels : SectorData)
    (x y z : Nat) (hx0 : 0 < x) (hx1 : x < SECTOR_MAX) (hy0 : 0 < y)
    (hy1 : y < SECTOR_MAX) (hz0 : 0 < z) (hz1 : z < SECTOR_MAX)
    (hblk : voxels.blocks (SectorData.index ⟨x, y, z⟩) ≠ Block.Air)
    (hrest : ∀ j, j < SECTOR_LEN → j ≠ SectorData.index ⟨x, y, z⟩ →
      voxels.blocks j = Block.Air) :
    totalFaces voxels = 6 ∧
      gen_terrain tex_info voxels =
        some (some ⟨allVerts tex_info voxels, facesIndicesFrom 0 6⟩) ∧
      (allVerts tex_info voxels).length = 24 := by
  have hxD : x < SECTOR_DIM := by simp only [SECTOR_MAX, SECTOR_DIM] at hx1 ⊢; omega
  have hyD : y < SECTOR_DIM := by simp only [SECTOR_MAX, SECTOR_DIM] at hy1 ⊢; omega
  have hzD : z < SECTOR_DIM := by simp only [SECTOR_MAX, SECTOR_DIM] at hz1 ⊢; omega
  have hi0 : SectorData.index ⟨x, y, z⟩ < SECTOR_LEN :=
    index_lt_len ⟨x, y, z⟩ hxD hyD hzD
  have hc : SectorData.coords (SectorData.index ⟨x, y, z⟩) = ⟨x, y, z⟩ :=
    coords_index_eq x y z hxD hyD hzD
  have hzero : ∀ j, j < SECTOR_LEN → j ≠ SectorData.index ⟨x, y, z⟩ →
      voxelFaces voxels j = [] := by
    intro j hj hne
    simp only [voxelFaces]
    split
    · rfl
    · rw [if_pos (hrest j hj hne)]
  have hfaces : voxelFaces voxels (SectorData.index ⟨x, y, z⟩) = FACES := by
    simp only [voxelFaces, hc]
    have hshell : ¬(x = SECTOR_MIN ∨ x = SECTOR_MAX ∨ y = SECTOR_MIN
        ∨ y = SECTOR_MAX ∨ z = SECTOR_MIN ∨ z = SECTOR_MAX) := by
      simp only [SECTOR_MIN, SECTOR_MAX, SECTOR_DIM]
      simp only [SECTOR_MAX, SECTOR_DIM] at hx1 hy1 hz1
      omega
    rw [if_neg hshell, if_neg hblk]
    apply List.filter_eq_self.mpr
    intro f _
    obtain ⟨adj, hn, hax, hay, haz, hne⟩ :=
      interior_neighbor x y z hx0 hx1 hy0 hy1 hz0 hz1 f.side
    have hadj_ne : SectorData.index adj ≠ SectorData.index ⟨x, y, z⟩ := by
      intro he
      apply hne
      have hco := congrArg SectorData.coords he
      rw [coords_index_eq adj.x adj.y adj.z hax hay haz, hc] at hco
      exact hco
    have hair : voxels.block adj = Block.Air :=
      hrest _ (index_lt_len adj hax hay haz) hadj_ne
    simp [faceOccluded, hn, hair, Block.is_transparent]
  have hT : totalFaces voxels = 6 := by
    rw [totalFaces]
    rw [sum_map_range_single _ SECTOR_LEN (SectorData.index ⟨x, y, z⟩) hi0
      (fun j hj hne => by rw [hzero j hj hne]; rfl)]
    rw [hfaces]
    rfl
  have hverts : allVerts tex_info voxels =
      voxelVerts tex_info voxels (SectorData.index ⟨x, y, z⟩) := by
    rw [allVerts]
    exact flatMap_range_single _ SECTOR_LEN (SectorData.index ⟨x, y, z⟩) hi0
      (fun j hj hne => by rw [voxelVerts, hzero j hj hne]; rfl)
  have hlen : (allVerts tex_info voxels).length = 24 := by
    rw [hverts, voxelVerts_length, hfaces]
    rfl
  refine ⟨hT, ?_, hlen⟩
  refine (gen_terrain_char tex_info voxels).trans ?_
  rw [hT, if_neg (by decide : ¬(6 : Nat) = 0)]

/-- Shared lemma: field access on a `PreGeometry` literal. -/
theorem vertices_mk (v : List VoxelVertex) (ind : List Nat) :
    (PreGeometry.mk v ind).vertices = v := rfl

/-- Shared lemma: field access on a `PreGeometry` literal. -/
theorem indices_mk (v : List VoxelVertex) (ind : List Nat) :
    (PreGeometry.mk v ind).indices = ind := rfl

/-- Claim C5: a sector whose only non-Air voxel is strictly interior (no
coordinate 0 or `DIM-1`) and surrounded by Air produces exactly 6 faces:
24 vertices and 36 indices, the indices forming triangles
`(i, i+1, i+2)`, `(i, i+2, i+3)` with the counter advancing by 4 per face. -/
theorem c5_single_interior_six_faces (tex_info : OutputInfo) (voxels : SectorData)
    (x y z : Nat) (hx0 : 0 < x) (hx1 : x < SECTOR_MAX) (hy0 : 0 < y)
    (hy1 : y < SECTOR_MAX) (hz0 : 0 < z) (hz1 : z < SECTOR_MAX)
    (hblk : voxels.blocks (SectorData.index ⟨x, y, z⟩) ≠ Block.Air)
    (hrest : ∀ j, j < SECTOR_LEN → j ≠ SectorData.index ⟨x, y, z⟩ →
      voxels.blocks j = Block.Air) :
    totalFaces voxels = 6 ∧
      ∃ pg, gen_terrain tex_info voxels = some (some pg) ∧
        pg.vertices.length = 24 ∧ pg.indices.length = 36 ∧
        pg.indices = facesIndicesFrom 0 6 := by
  obtain ⟨hT, hgen, hlen⟩ := single_voxel_gen tex_info voxels x y z hx0 hx1 hy0
    hy1 hz0 hz1 hblk hrest
  refine ⟨hT, ⟨allVerts tex_info voxels, facesIndicesFrom 0 6⟩, hgen, ?_, ?_, ?_⟩
  · rw [vertices_mk]
    exact hlen
  · rw [indices_mk]
    decide
  · rw [indices_mk]

/-- Witness fixture: a sector holding one interior `Stone` voxel at `(2,2,2)`
and `Air` everywhere else. -/
def singleSector : SectorData :=
  ⟨fun i => if i = SectorData.index ⟨2, 2, 2⟩ then Block.Stone else Block.Air⟩

/-- Witness for C5: `singleSector` produces exactly 6 faces. -/
theorem c5_single_interior_six_faces_witness :
    totalFaces singleSector = 6 ∧
      ∃ pg, gen_terrain texDemo singleSector = some (some pg) ∧
        pg.vertices.length = 24 ∧ pg.indices.length = 36 ∧
        pg.indices = facesIndicesFrom 0 6 :=
  c5_single_interior_six_faces texDemo singleSector 2 2 2 (by decide) (by decide)
    (by decide) (by decide) (by decide) (by decide) (by decide)
    (fun j _ hne => if_neg hne)

/-- Witness for C10: the populated geometry of `singleSector` is
well-formed. -/
theorem c10_geometry_well_formed_witness :
    ∃ pg, gen_terrain texDemo singleSector = some (some pg) ∧
      ∃ F, 1 ≤ F ∧ pg.vertices.length = 4 * F ∧ pg.indices.length = 6 * F ∧
        ∀ ix ∈ pg.indices, ix < pg.vertices.length := by
  obtain ⟨hT, hgen, hlen⟩ := single_voxel_gen texDemo singleSector 2 2 2
    (by decide) (by decide) (by decide) (by decide) (by decide) (by decide)
    (by decide) (fun j _ hne => if_neg hne)
  exact ⟨_, hgen, c10_geometry_well_formed texDemo singleSector _ hgen⟩

/-! ## Texture coordinate bounds (claim C9) -/

/-- The tile-local U value computed by `tex_coord` before the bias
(`tile_u` in the source). -/
def tileLocalU (orig : Vec3) (face : Face) : ℚ :=
  if face.flip_u then -(orig.comp face.u_idx) + 1 else orig.comp face.u_idx

/-- The tile-local V value computed by `tex_coord` before the bias
(`tile_v` in the source). -/
def tileLocalV (orig : Vec3) (face : Face) : ℚ :=
  if face.flip_v then orig.comp face.v_idx else -(orig.comp face.v_idx) + 1

/-- The half-texel inward bias of `tex_coord` (`tile_u_adj`/`tile_v_adj` in
the source): add or subtract `1/(16·TILE_SIZE)` pulling the value toward
`1/2`. -/
def tileAdj (w : ℚ) : ℚ :=
  if w < 1/2 then w + 1 / (16 * TILE_SIZE_Q) else w - 1 / (16 * TILE_SIZE_Q)

/-- Shared lemma: the closed form of `tex_coord` on a block whose texture id
is defined. -/
theorem tex_coord_eq (tex_info : OutputInfo) (blk : Block) (orig : Vec3)
    (face : Face) (t : Nat) (ht : blk.texture_id face.side = some t) :
    tex_coord tex_info blk orig face =
      some ((tileAdj (tileLocalU orig face)
            + ((t % (tex_info.width / TILE_SIZE) : Nat) : ℚ)) * TILE_SIZE_Q
          / (tex_info.width : ℚ),
        (tileAdj (tileLocalV orig face)
            + ((t / (tex_info.width / TILE_SIZE) : Nat) : ℚ)) * TILE_SIZE_Q
          / (tex_info.height : ℚ)) := by
  simp only [tex_coord, ht, tileAdj, tileLocalU, tileLocalV]

/-- Shared lemma: the biased tile-local value stays inside `[0, 1]` when the
raw value is a unit-cube corner component. -/
theorem tileAdj_bounds (w : ℚ) (hw : w = 0 ∨ w = 1) :
    0 ≤ tileAdj w ∧ tileAdj w ≤ 1 := by
  rcases hw with rfl | rfl <;> norm_num [tileAdj, TILE_SIZE_Q]

/-- Shared lemma: scaling by the tile size and dividing by the atlas extent
keeps a biased coordinate inside its tile's fraction of the atlas. -/
theorem scaled_bound (adjq cq tprq : ℚ) (h0 : 0 ≤ adjq) (h1 : adjq ≤ 1)
    (ht : 0 < tprq) :
    cq / tprq ≤ (adjq + cq) * TILE_SIZE_Q / (tprq * TILE_SIZE_Q) ∧
      (adjq + cq) * TILE_SIZE_Q / (tprq * TILE_SIZE_Q) ≤ (cq + 1) / tprq := by
  have h16 : (TILE_SIZE_Q : ℚ) ≠ 0 := by norm_num [TILE_SIZE_Q]
  have heq : (adjq + cq) * TILE_SIZE_Q / (tprq * TILE_SIZE_Q) = (adjq + cq) / tprq :=
    mul_div_mul_right _ _ h16
  rw [heq]
  constructor
  · exact (div_le_div_right ht).mpr (by linarith)
  · exact (div_le_div_right ht).mpr (by linarith)

/-- Shared lemma: for faces of `FACES` and corners of `POSITIONS`, the raw
tile-local coordinates are unit-cube corner components, hence 0 or 1. -/
theorem tileLocal_corner (f : Face) (pos_idx : Nat) (hf : f ∈ FACES)
    (hp : pos_idx ∈ f.positions) :
    (tileLocalU (POSITIONS.getD pos_idx (0, 0, 0)) f = 0 ∨
      tileLocalU (POSITIONS.getD pos_idx (0, 0, 0)) f = 1) ∧
    (tileLocalV (POSITIONS.getD pos_idx (0, 0, 0)) f = 0 ∨
      tileLocalV (POSITIONS.getD pos_idx (0, 0, 0)) f = 1) := by
  have hpos8 : pos_idx < 8 := by
    have hall : ∀ g ∈ FACES, ∀ p ∈ g.positions, p < 8 := by decide
    exact hall f hf pos_idx hp
  have hidx : f.u_idx < 3 ∧ f.v_idx < 3 := by
    have hall : ∀ g ∈ FACES, g.u_idx < 3 ∧ g.v_idx < 3 := by decide
    exact hall f hf
  have hcomp : ∀ k, k < 8 → ∀ j, j < 3 →
      ((POSITIONS.getD k (0, 0, 0)).comp j = 0 ∨
        (POSITIONS.getD k (0, 0, 0)).comp j = 1) := by decide
  have hu := hcomp pos_idx hpos8 f.u_idx hidx.1
  have hv := hcomp pos_idx hpos8 f.v_idx hidx.2
  constructor
  · rcases hu with h | h <;> rw [tileLocalU] <;> split <;> rw [h] <;> norm_num
  · rcases hv with h | h <;> rw [tileLocalV] <;> split <;> rw [h] <;> norm_num

/-- Claim C9: for an atlas whose width and height are positive multiples of
the 16-pixel tile size and a block face with defined tile index `t`, every
texture coordinate produced by `tex_coord` for the face's unit-cube corners
lies inside tile `t`'s rectangle of the atlas — horizontally between
`(t mod tilesPerRow)/tilesPerRow` and `(t mod tilesPerRow + 1)/tilesPerRow`,
vertically between `(t div tilesPerRow)/tilesPerCol` and
`(t div tilesPerRow + 1)/tilesPerCol` — the inward bias having kept the
tile-local coordinate inside `[0, 1]`. -/
theorem c9_uv_inside_tile (tex_info : OutputInfo) (blk : Block) (f : Face)
    (pos_idx t : Nat)
    (hwdvd : TILE_SIZE ∣ tex_info.width) (hw0 : 0 < tex_info.width)
    (hhdvd : TILE_SIZE ∣ tex_info.height) (hh0 : 0 < tex_info.height)
    (hf : f ∈ FACES) (hp : pos_idx ∈ f.positions)
    (ht : blk.texture_id f.side = some t) :
    ∃ u v, tex_coord tex_info blk (POSITIONS.getD pos_idx (0, 0, 0)) f = some (u, v) ∧
      ((t % (tex_info.width / TILE_SIZE) : Nat) : ℚ)
          / ((tex_info.width / TILE_SIZE : Nat) : ℚ) ≤ u ∧
      u ≤ (((t % (tex_info.width / TILE_SIZE) : Nat) : ℚ) + 1)
          / ((tex_info.width / TILE_SIZE : Nat) : ℚ) ∧
      ((t / (tex_info.width / TILE_SIZE) : Nat) : ℚ)
          / ((tex_info.height / TILE_SIZE : Nat) : ℚ) ≤ v ∧
      v ≤ (((t / (tex_info.width / TILE_SIZE) : Nat) : ℚ) + 1)
          / ((tex_info.height / TILE_SIZE : Nat) : ℚ) := by
  have hw16 : 16 ≤ tex_info.width := Nat.le_of_dvd hw0 hwdvd
  have hh16 : 16 ≤ tex_info.height := Nat.le_of_dvd hh0 hhdvd
  have htprN : 0 < tex_info.width / TILE_SIZE :=
    Nat.div_pos (by simpa [TILE_SIZE] using hw16) (by simp [TILE_SIZE])
  have htpcN : 0 < tex_info.height / TILE_SIZE :=
    Nat.div_pos (by simpa [TILE_SIZE] using hh16) (by simp [TILE_SIZE])
  have htprQ : (0 : ℚ) < ((tex_info.width / TILE_SIZE : Nat) : ℚ) := by
    exact_mod_cast htprN
  have htpcQ : (0 : ℚ) < ((tex_info.height / TILE_SIZE : Nat) : ℚ) := by
    exact_mod_cast htpcN
  have hwQ : (tex_info.width : ℚ) =
      ((tex_info.width / TILE_SIZE : Nat) : ℚ) * TILE_SIZE_Q := by
    rw [TILE_SIZE_Q]
    have := Nat.div_mul_cancel hwdvd
    calc (tex_info.width : ℚ) = ((tex_info.width / TILE_SIZE * TILE_SIZE : Nat) : ℚ) := by
          rw [this]
      _ = ((tex_info.width / TILE_SIZE : Nat) : ℚ) * 16 := by
          push_cast [TILE_SIZE]
          ring
  have hhQ : (tex_info.height : ℚ) =
      ((tex_info.height / TILE_SIZE : Nat) : ℚ) * TILE_SIZE_Q := by
    rw [TILE_SIZE_Q]
    have := Nat.div_mul_cancel hhdvd
    calc (tex_info.height : ℚ) = ((tex_info.height / TILE_SIZE * TILE_SIZE : Nat) : ℚ) := by
          rw [this]
      _ = ((tex_info.height / TILE_SIZE : Nat) : ℚ) * 16 := by
          push_cast [TILE_SIZE]
          ring
  obtain ⟨hcU, hcV⟩ := tileLocal_corner f pos_idx hf hp
  obtain ⟨haU0, haU1⟩ := tileAdj_bounds _ hcU
  obtain ⟨haV0, haV1⟩ := tileAdj_bounds _ hcV
  refine ⟨_, _, tex_coord_eq tex_info blk (POSITIONS.getD pos_idx (0, 0, 0)) f t ht,
    ?_, ?_, ?_, ?_⟩
  · have hb := (scaled_bound (tileAdj (tileLocalU (POSITIONS.getD pos_idx (0, 0, 0)) f))
      ((t % (tex_info.width / TILE_SIZE) : Nat) : ℚ)
      ((tex_info.width / TILE_SIZE : Nat) : ℚ) haU0 haU1 htprQ).1
    rw [hwQ]
    exact hb
  · have hb := (scaled_bound (tileAdj (tileLocalU (POSITIONS.getD pos_idx (0, 0, 0)) f))
      ((t % (tex_info.width / TILE_SIZE) : Nat) : ℚ)
      ((tex_info.width / TILE_SIZE : Nat) : ℚ) haU0 haU1 htprQ).2
    rw [hwQ]
    exact hb
  · have hb := (scaled_bound (tileAdj (tileLocalV (POSITIONS.getD pos_idx (0, 0, 0)) f))
      ((t / (tex_info.width / TILE_SIZE) : Nat) : ℚ)
      ((tex_info.height / TILE_SIZE : Nat) : ℚ) haV0 haV1 htpcQ).1
    rw [hhQ]
    exact hb
  · have hb := (scaled_bound (tileAdj (tileLocalV (POSITIONS.getD pos_idx (0, 0, 0)) f))
      ((t / (tex_info.width / TILE_SIZE : Nat) : Nat) : ℚ)
      ((tex_info.height / TILE_SIZE : Nat) : ℚ) haV0 haV1 htpcQ).2
    rw [hhQ]
    exact hb

/-- Witness for C9: the front face of a `Stone` voxel on the 256×256 demo
atlas (tile 0, 16 tiles per row). -/
theorem c9_uv_inside_tile_witness :
    ∃ u v, tex_coord texDemo Block.Stone (POSITIONS.getD 4 (0, 0, 0))
        ⟨Side.Front, [4, 5, 6, 7], false, false, 0, 1⟩ = some (u, v) ∧
      ((0 % (texDemo.width / TILE_SIZE) : Nat) : ℚ)
          / ((texDemo.width / TILE_SIZE : Nat) : ℚ) ≤ u ∧
      u ≤ (((0 % (texDemo.width / TILE_SIZE) : Nat) : ℚ) + 1)
          / ((texDemo.width / TILE_SIZE : Nat) : ℚ) ∧
      ((0 / (texDemo.width / TILE_SIZE) : Nat) : ℚ)
          / ((texDemo.height / TILE_SIZE : Nat) : ℚ) ≤ v ∧
      v ≤ (((0 / (texDemo.width / TILE_SIZE) : Nat) : ℚ) + 1)
          / ((texDemo.height / TILE_SIZE : Nat) : ℚ) :=
  c9_uv_inside_tile texDemo Block.Stone
    ⟨Side.Front, [4, 5, 6, 7], false, false, 0, 1⟩ 4 0
    (by decide) (by decide) (by decide) (by decide) (by decide) (by decide)
    (by decide)

/-! ## Generation worker (claim C8) -/

/-- Modelled from the spec: `SectorIndex` — "a triplet of signed integers
identifying a sector's position in the infinite world grid".  Its defining
module is the sector module file absent from `src/`; every use embedded here
is from `src/entity/sector/generation.rs`.  The Rust tuple fields `.0`,
`.1`, `.2` are named `x`, `y`, `z`. -/
structure SectorIndex where
  x : Int
  y : Int
  z : Int
deriving DecidableEq

/-- `superflat_sector` from `src/entity/sector/generation.rs`: all-Air unless
the sector's world y-coordinate is `-1`; otherwise `Soil` below
`SECTOR_MAX - 1`, a `Grass`/`TestBlock` layer at `SECTOR_MAX - 1`, `Air`
above.  The source writes each array entry through `iter_mut`, which yields
`(coords(i), &mut blocks[i])`; the model assigns the same value at each
index. -/
def superflat_sector (world_pos : SectorIndex) : SectorData :=
  if world_pos.y ≠ -1 then SectorData.new
  else
    ⟨fun i =>
      let c := SectorData.coords i
      if c.y < SECTOR_MAX - 1 then Block.Soil
      else if c.y = SECTOR_MAX - 1 then
        if c.x % 4 = 0 ∧ c.z % 4 = 0 then Block.TestBlock else Block.Grass
      else Block.Air⟩

/-- `Message` from `src/entity/sector/generation.rs`. -/
structure Message where
  world_pos : SectorIndex
  sector_data : SectorData
  pre_geometry : Option PreGeometry

/-- The message body built by one iteration of `worker_thread`: the sector
data from `superflat_sector` and the pre-geometry from `gen_terrain` (whose
provably never-taken panic layer is collapsed with `Option.join`). -/
def workerMessage (tex_info : OutputInfo) (world_pos : SectorIndex) : Message :=
  ⟨world_pos, superflat_sector world_pos,
    (gen_terrain tex_info (superflat_sector world_pos)).join⟩

/-- The coordinate scan order of `worker_thread`: `x` over `-10..11`, `y`
over `-1..0`, `z` over `-10..11`, nested in that loop order. -/
def workerScanOrder : List SectorIndex :=
  (List.range 21).flatMap fun xi =>
    (List.range 1).flatMap fun yi =>
      (List.range 21).map fun zi =>
        ⟨(xi : Int) - 10, (yi : Int) - 1, (zi : Int) - 10⟩

/-- The send loop of `worker_thread` with the channel abstracted: `sendOk n`
is the result of the `n`-th `tx.send` (`false` models `Err`, the receiver
having been dropped).  On `Ok` the loop continues with the next coordinate;
on `Err` it returns at once (the source prints "quitting!" and `return`s),
producing no further message. -/
def workerLoop (tex_info : OutputInfo) (sendOk : Nat → Bool) :
    List SectorIndex → Nat → List Message
  | [], _ => []
  | p :: ps, n =>
    if sendOk n then
      workerMessage tex_info p :: workerLoop tex_info sendOk ps (n + 1)
    else []

/-- `worker_thread` from `src/entity/sector/generation.rs`, returning the
trace of messages successfully sent over the channel. -/
def worker_thread (tex_info : OutputInfo) (sendOk : Nat → Bool) : List Message :=
  workerLoop tex_info sendOk workerScanOrder 0

/-- Shared lemma: with no send failure the worker completes its scan. -/
theorem workerLoop_all (tex_info : OutputInfo) (sendOk : Nat → Bool)
    (h : ∀ n, sendOk n = true) :
    ∀ (l : List SectorIndex) (n : Nat),
      workerLoop tex_info sendOk l n = l.map (workerMessage tex_info) := by
  intro l
  induction l with
  | nil => intro n; rfl
  | cons p ps ih =>
    intro n
    simp only [workerLoop, h n, if_true, ih (n + 1), List.map_cons]

/-- Shared lemma: the worker's trace is the scan prefix before the first
send failure. -/
theorem workerLoop_take (tex_info : OutputInfo) (sendOk : Nat → Bool) :
    ∀ (l : List SectorIndex) (n j : Nat), (∀ m, m < j → sendOk (n + m) = true) →
      sendOk (n + j) = false →
      workerLoop tex_info sendOk l n = (l.map (workerMessage tex_info)).take j := by
  intro l
  induction l with
  | nil => intro n j _ _; simp [workerLoop]
  | cons p ps ih =>
    intro n j h1 h2
    cases j with
    | zero =>
      have hn : sendOk n = false := by simpa using h2
      simp [workerLoop, hn]
    | succ j' =>
      have hn : sendOk n = true := by simpa using h1 0 (by omega)
      have h1' : ∀ m, m < j' → sendOk (n + 1 + m) = true := by
        intro m hm
        have := h1 (m + 1) (by omega)
        simpa [Nat.add_assoc, Nat.add_comm 1 m] using this
      have h2' : sendOk (n + 1 + j') = false := by
        have heq : n + 1 + j' = n + (j' + 1) := by omega
        rw [heq]
        exact h2
      simp only [workerLoop, hn, if_true, ih (n + 1) j' h1' h2', List.map_cons,
        List.take_succ_cons]

/-- Shared lemma: if the worker stopped before exhausting its scan, the send
at the stopping point failed. -/
theorem workerLoop_stop (tex_info : OutputInfo) (sendOk : Nat → Bool) :
    ∀ (l : List SectorIndex) (n : Nat),
      (workerLoop tex_info sendOk l n).length < l.length →
      sendOk (n + (workerLoop tex_info sendOk l n).length) = false := by
  intro l
  induction l with
  | nil => intro n h; simp [workerLoop] at h
  | cons p ps ih =>
    intro n h
    by_cases hn : sendOk n = true
    · rw [workerLoop, if_pos hn] at h ⊢
      simp only [List.length_cons] at h ⊢
      have hlt : (workerLoop tex_info sendOk ps (n + 1)).length < ps.length := by
        omega
      have := ih (n + 1) hlt
      have heq : n + 1 + (workerLoop tex_info sendOk ps (n + 1)).length =
          n + ((workerLoop tex_info sendOk ps (n + 1)).length + 1) := by omega
      rw [heq] at this
      exact this
    · have hn' : sendOk n = false := by simpa using hn
      rw [workerLoop, if_neg (by simp [hn'])]
      simpa using hn'

set_option maxRecDepth 4000 in
/-- Claim C8: the worker's loop sends its 441-coordinate scan in order; with
no send failure it completes the full scan; the first failed send makes it
return at once, having sent exactly the scan prefix before the failure and
generating nothing further; and stopping short of the full scan happens only
because the send at the stopping point failed. -/
theorem c8_worker_stops_on_send_failure (tex_info : OutputInfo)
    (sendOk : Nat → Bool) :
    workerScanOrder.length = 441 ∧
      ((∀ n, sendOk n = true) →
        worker_thread tex_info sendOk = workerScanOrder.map (workerMessage tex_info)) ∧
      (∀ n0, (∀ m, m < n0 → sendOk m = true) → sendOk n0 = false →
        worker_thread tex_info sendOk =
          (workerScanOrder.map (workerMessage tex_info)).take n0) ∧
      ((worker_thread tex_info sendOk).length < workerScanOrder.length →
        sendOk (worker_thread tex_info sendOk).length = false) := by
  refine ⟨by decide, ?_, ?_, ?_⟩
  · intro h
    exact workerLoop_all tex_info sendOk h workerScanOrder 0
  · intro n0 h1 h2
    exact workerLoop_take tex_info sendOk workerScanOrder 0 n0
      (fun m hm => by simpa using h1 m hm) (by simpa using h2)
  · intro h
    have := workerLoop_stop tex_info sendOk workerScanOrder 0 h
    simpa using this

/-- Witness for C8: with the receiver dropped after 3 successful sends, the
worker sends exactly the first 3 messages of its scan and stops. -/
theorem c8_worker_stops_on_send_failure_witness :
    worker_thread texDemo (fun n => decide (n < 3)) =
      (workerScanOrder.map (workerMessage texDemo)).take 3 :=
  (c8_worker_stops_on_send_failure texDemo (fun n => decide (n < 3))).2.2.1 3
    (fun m hm => by simp; omega) (by decide)
